import Mathlib

/-
Verification of the request-orchestration layer of the x-ray analysis
service (src/lib/gemini.ts): the backoff retrier, the analysis
orchestrator and the base64 encoder, shallowly embedded in Lean.
Thrown JavaScript values are modelled as `Thrown` (an Error with a
message, or a non-Error value); asynchronous operations become
functions from the attempt index to an outcome; `Math.random()` becomes
an explicit stream of rationals in [0, 1); observable effects (delays
awaited, fetches issued, model invocations) are recorded in log
structures.
-/

/-- A value thrown by JavaScript code: either an `Error` carrying a
message, or some non-`Error` value (whose content the code never
inspects). -/
inductive Thrown where
  | jsError (message : String)
  | nonError
deriving DecidableEq, Repr

/-- Substring test, mirroring JavaScript `String.prototype.includes`:
`containsSub s pat` is true iff `pat` occurs contiguously in `s`. -/
def containsSub (s pat : String) : Bool :=
  (List.range (s.data.length + 1)).any fun i => pat.data.isPrefixOf (s.data.drop i)

/-- The transient-failure message test used at both layers of
gemini.ts: the message contains "503" or "overloaded". -/
def transientMsg (m : String) : Bool :=
  containsSub m "503" || containsSub m "overloaded"

/-- Classification in `retryWithBackoff`:
`error instanceof Error && (error.message.includes("503") || error.message.includes("overloaded"))`. -/
def isTransient (e : Thrown) : Bool :=
  match e with
  | .jsError m => transientMsg m
  | .nonError => false

/-- Result of running an asynchronous operation to completion: the
promise resolves with a value or rejects with a thrown value. -/
inductive Outcome (α : Type) where
  | success (v : α)
  | failure (e : Thrown)
deriving DecidableEq, Repr

/-- Observable record of one `retryWithBackoff` run: the final result,
how many times the operation was invoked, and the backoff delays (in
ms) awaited, in order. -/
structure RunLog (α : Type) where
  result : Outcome α
  attempts : Nat
  delays : List ℚ
deriving DecidableEq, Repr

/-- The message of the error thrown when the retry budget is
exhausted (gemini.ts line 48). -/
def maxRetriesMsg : String :=
  "Maximum retries reached. The service is currently unavailable. Please try again later."

/-- The `while (retries < maxRetries)` loop of `retryWithBackoff`,
with `fuel = maxRetries - retries` making the loop guard structural.
`op n` is the outcome of the (0-indexed) n-th invocation of the
operation; `rand n` models the `Math.random()` draw after the n-th
transient failure; `initialDelay` is the base delay in ms. When the
guard fails the loop is exited and the maximum-retries error is
thrown; on success the value is returned at once; on a transient
failure the delay `initialDelay * 2 ^ retries + rand retries * 1000`
is awaited and the loop continues with `retries + 1`; any other
failure is rethrown unchanged. -/
def retryGo {α : Type} (op : Nat → Outcome α) (rand : Nat → ℚ) (initialDelay : ℚ) :
    Nat → Nat → RunLog α
  | _retries, 0 => ⟨.failure (.jsError maxRetriesMsg), 0, []⟩
  | retries, fuel + 1 =>
    match op retries with
    | .success v => ⟨.success v, 1, []⟩
    | .failure e =>
      if isTransient e then
        let waitTime := initialDelay * 2 ^ retries + rand retries * 1000
        let rest := retryGo op rand initialDelay (retries + 1) fuel
        ⟨rest.result, rest.attempts + 1, waitTime :: rest.delays⟩
      else ⟨.failure e, 1, []⟩

/-- `retryWithBackoff(operation, maxRetries, initialDelay)` of
gemini.ts (defaults at call sites: maxRetries = 5,
initialDelay = 2000), as the loop started at `retries = 0`. -/
def retryWithBackoff {α : Type} (op : Nat → Outcome α) (rand : Nat → ℚ)
    (maxRetries : Nat) (initialDelay : ℚ) : RunLog α :=
  retryGo op rand initialDelay 0 maxRetries

/-- The n-th invocation of the operation fails with a
transient-classified error. -/
def transientAt {α : Type} (op : Nat → Outcome α) (n : Nat) : Prop :=
  ∃ e, op n = .failure e ∧ isTransient e = true

/-- A fetched blob: its declared content type (`blob.type`) and the
result the `FileReader` delivers for it when read as a data URL
(`none` models the reader firing its error event). -/
structure Blob where
  type : String
  readData : Option (List Char)
deriving DecidableEq, Repr

/-- JavaScript `String.prototype.split` with a one-character
separator, on the character list of the string: splits at every
occurrence of `sep`, keeping empty segments. -/
def splitChar (sep : Char) : List Char → List (List Char)
  | [] => [[]]
  | c :: cs =>
    match splitChar sep cs with
    | [] => [[]]
    | h :: t => if c = sep then [] :: h :: t else (c :: h) :: t

/-- Message rejected with when the reader result has nothing usable
after the first comma (gemini.ts line 132). -/
def convertFailMsg : String := "Failed to convert image to base64"

/-- Message rejected with when the `FileReader` errors
(gemini.ts line 137). -/
def readFailMsg : String := "Failed to read image file"

/-- `blobToBase64` of gemini.ts: read the blob as a data URL, take
`base64String.split(",")[1]`, and reject when that is falsy
(missing, because no comma occurs, or the empty string); an error
event of the reader rejects with the read-failure message. -/
def blobToBase64 (blob : Blob) : Except Thrown String :=
  match blob.readData with
  | none => .error (.jsError readFailMsg)
  | some base64String =>
    match (splitChar ',' base64String).get? 1 with
    | none => .error (.jsError convertFailMsg)
    | some base64WithoutPrefix =>
      if base64WithoutPrefix.isEmpty then .error (.jsError convertFailMsg)
      else .ok (String.mk base64WithoutPrefix)

/-- One part of a model request: a text block or inline image data
with its mime type. -/
inductive ReqPart where
  | text (s : String)
  | inlineData (mimeType : String) (data : String)
deriving DecidableEq, Repr

/-- Behaviour of one `model.generateContent` invocation: the promise
chain rejects with a thrown value, or delivers a response object that
is absent (falsy) or carries extractable text. -/
inductive ModelOutcome where
  | throwErr (e : Thrown)
  | respond (r : Option String)
deriving DecidableEq, Repr

/-- Result of `await fetch(imageUrl)`: the promise rejects, or
resolves to a response with its `ok` flag and (on `.blob()`) a blob. -/
inductive FetchOutcome where
  | reject (e : Thrown)
  | resp (ok : Bool) (blob : Blob)

/-- The external collaborators of `analyzeXrayImage`: HTTP fetch by
URL, and the remote model, indexed by how many invocations this call
has already made (each attempt of the retrier is one invocation). -/
structure Env where
  fetch : String → FetchOutcome
  modelRespond : Nat → ModelOutcome

/-- Message thrown when the model response object is falsy
(gemini.ts lines 65 and 105). -/
def noResponseMsg : String := "No response from Gemini API"

/-- The `generateContent` closures of gemini.ts as an operation for
the retrier: a rejection propagates, a falsy response becomes the
no-response error, otherwise the text is the success value. -/
def opOf (env : Env) : Nat → Outcome String := fun n =>
  match env.modelRespond n with
  | .throwErr e => .failure e
  | .respond none => .failure (.jsError noResponseMsg)
  | .respond (some t) => .success t

/-- The `languagePrompt` flat conditional of gemini.ts lines 82-88. -/
def languagePrompt (language : String) : String :=
  if language = "hindi" then "Provide the analysis in Hindi language."
  else if language = "marathi" then "Provide the analysis in Marathi language."
  else ""

/-- The instruction block of the text-only branch (gemini.ts line 59). -/
def textOnlyInstruction (prompt language : String) : String :=
  "You are a medical professional. " ++ prompt ++ " Provide the response in " ++
    language ++ " language."

/-- The instruction block of the image-grounded branch
(gemini.ts line 93). -/
def imageInstruction (prompt language : String) : String :=
  "You are a medical professional analyzing an X-ray image. " ++
    "Please provide a detailed analysis based on the following prompt: " ++
    prompt ++ ". " ++ languagePrompt language

/-- Message thrown when the image fetch has a non-ok status
(gemini.ts line 76). -/
def fetchFailMsg : String := "Failed to fetch image"

/-- The stable message of the transient rewrite in the outer catch of
`analyzeXrayImage` (gemini.ts line 116). -/
def highLoadMsg : String :=
  "The AI service is temporarily unavailable. We tried multiple times but the service is experiencing high load. Please try again in a few minutes."

/-- Message thrown when a non-Error value reaches the outer catch
(gemini.ts line 121). -/
def unexpectedMsg : String := "An unexpected error occurred while analyzing the image"

/-- Observable record of one `analyzeXrayImage` call: the result
delivered to the caller, the URLs fetched, the parts of the model
request issued (none when the model stage was never reached) and how
many model invocations were made. -/
structure AnalysisLog where
  result : Outcome String
  fetches : List String
  requestParts : Option (List ReqPart)
  modelCalls : Nat
deriving Repr

/-- The outer catch of `analyzeXrayImage` (gemini.ts lines 112-122):
an Error whose message contains "503" or "overloaded" is rewritten to
the stable high-load message, any other Error is rethrown with its
original message, and a non-Error value becomes the generic
unexpected-error message. -/
def normalizeError (e : Thrown) : Thrown :=
  match e with
  | .jsError m => if transientMsg m then .jsError highLoadMsg else .jsError m
  | .nonError => .jsError unexpectedMsg

/-- The body of the `try` block of `analyzeXrayImage`: the text-only
branch when the image URL is falsy and the language is not english;
otherwise fetch the image (non-ok status throws the fetch-failure
error), encode it, and issue the two-part request. Both branches go
through `retryWithBackoff` with its default policy (5, 2000). -/
def analyzeTry (env : Env) (rand : Nat → ℚ) (imageUrl prompt language : String) :
    AnalysisLog :=
  if imageUrl = "" ∧ language ≠ "english" then
    let parts := [ReqPart.text (textOnlyInstruction prompt language)]
    let run := retryWithBackoff (opOf env) rand 5 2000
    ⟨run.result, [], some parts, run.attempts⟩
  else
    match env.fetch imageUrl with
    | .reject e => ⟨.failure e, [imageUrl], none, 0⟩
    | .resp ok blob =>
      if ok then
        match blobToBase64 blob with
        | .error e => ⟨.failure e, [imageUrl], none, 0⟩
        | .ok base64Image =>
          let parts := [ReqPart.text (imageInstruction prompt language),
                        ReqPart.inlineData blob.type base64Image]
          let run := retryWithBackoff (opOf env) rand 5 2000
          ⟨run.result, [imageUrl], some parts, run.attempts⟩
      else ⟨.failure (.jsError fetchFailMsg), [imageUrl], none, 0⟩

/-- `analyzeXrayImage` of gemini.ts: the `try` body with the outer
catch applied to any thrown value; a resolved value passes through. -/
def analyzeXrayImage (env : Env) (rand : Nat → ℚ)
    (imageUrl prompt language : String) : AnalysisLog :=
  let t := analyzeTry env rand imageUrl prompt language
  { t with result := match t.result with
      | .success v => .success v
      | .failure e => .failure (normalizeError e) }

/-
Concrete operations, jitter streams, blobs and environments used to
instantiate the theorems below on closed inputs.
-/

/-- Operation failing transiently once, then succeeding with 42. -/
def wOpOnce : Nat → Outcome Nat := fun n =>
  if n = 0 then .failure (.jsError "503 Service Unavailable") else .success 42

/-- A jitter stream that always draws 0. -/
def wRand0 : Nat → ℚ := fun _ => 0

/-- Operation that fails transiently on every attempt. -/
def wOpAlways : Nat → Outcome Nat := fun _ => .failure (.jsError "model is overloaded")

/-- Operation whose first attempt fails with a permanent error. -/
def wOpPerm : Nat → Outcome Nat := fun _ => .failure (.jsError "400 Bad Request")

/-- A jitter stream that always draws 1/2. -/
def wRandHalf : Nat → ℚ := fun _ => 1 / 2

/-- A well-formed blob whose data URL carries the payload QUJD. -/
def wBlob : Blob := ⟨"image/png", some "data:image/png;base64,QUJD".data⟩

/-- An environment whose fetch always succeeds with `wBlob` and whose
model always answers with text. -/
def wEnv : Env := ⟨fun _ => .resp true wBlob, fun _ => .respond (some "analysis text")⟩

/-- An environment whose fetch resolves with a non-ok (404) status. -/
def wEnv404 : Env := ⟨fun _ => .resp false wBlob, fun _ => .respond (some "analysis text")⟩

/-- An environment whose model always rejects with a 503 error. -/
def wEnv503 : Env := ⟨fun _ => .resp true wBlob, fun _ => .throwErr (.jsError "503 Service Unavailable")⟩

/-
Helper lemmas about the retry loop.
-/

/-- Unfolding of `transientAt`. -/
theorem transientAt_iff {α : Type} (op : Nat → Outcome α) (n : Nat) :
    transientAt op n ↔ ∃ e, op n = .failure e ∧ isTransient e = true := Iff.rfl

/-- If the first `k` invocations fail transiently and the next one
succeeds, the loop returns that success after `k + 1` invocations. -/
theorem retryGo_success {α : Type} (op : Nat → Outcome α) (rand : Nat → ℚ) (d : ℚ)
    (v : α) :
    ∀ (k retries fuel : Nat), k < fuel →
      (∀ i, i < k → transientAt op (retries + i)) →
      op (retries + k) = .success v →
      (retryGo op rand d retries fuel).result = .success v ∧
      (retryGo op rand d retries fuel).attempts = k + 1 := by
  intro k
  induction k with
  | zero =>
    intro retries fuel hk _ hop
    obtain ⟨fuel', rfl⟩ : ∃ f, fuel = f + 1 := ⟨fuel - 1, by omega⟩
    rw [Nat.add_zero] at hop
    simp [retryGo, hop]
  | succ k ih =>
    intro retries fuel hk htr hop
    obtain ⟨fuel', rfl⟩ : ∃ f, fuel = f + 1 := ⟨fuel - 1, by omega⟩
    obtain ⟨e, he, hte⟩ := (transientAt_iff op _).mp (htr 0 (Nat.succ_pos k))
    rw [Nat.add_zero] at he
    have hrest := ih (retries + 1) fuel' (by omega)
      (fun i hi => by
        have h := htr (i + 1) (by omega)
        rwa [show retries + (i + 1) = retries + 1 + i by omega] at h)
      (by rwa [show retries + 1 + k = retries + (k + 1) by omega])
    simp [retryGo, he, hte]
    exact ⟨hrest.1, by omega⟩

/-- If every invocation the budget allows fails transiently, the loop
exhausts the budget: the maximum-retries error, one invocation and
one recorded delay per unit of budget. -/
theorem retryGo_exhaust {α : Type} (op : Nat → Outcome α) (rand : Nat → ℚ) (d : ℚ) :
    ∀ (fuel retries : Nat), (∀ i, i < fuel → transientAt op (retries + i)) →
      (retryGo op rand d retries fuel).result = .failure (.jsError maxRetriesMsg) ∧
      (retryGo op rand d retries fuel).attempts = fuel ∧
      (retryGo op rand d retries fuel).delays.length = fuel := by
  intro fuel
  induction fuel with
  | zero => intro retries _; simp [retryGo]
  | succ fuel ih =>
    intro retries htr
    obtain ⟨e, he, hte⟩ := (transientAt_iff op _).mp (htr 0 (Nat.succ_pos fuel))
    rw [Nat.add_zero] at he
    have hrest := ih (retries + 1)
      (fun i hi => by
        have h := htr (i + 1) (by omega)
        rwa [show retries + (i + 1) = retries + 1 + i by omega] at h)
    simp [retryGo, he, hte]
    exact ⟨hrest.1, by omega, by omega⟩

/-- Every recorded delay is exactly
`initialDelay * 2 ^ attemptIndex + jitter * 1000`. -/
theorem retryGo_delay_eq {α : Type} (op : Nat → Outcome α) (rand : Nat → ℚ) (d : ℚ) :
    ∀ (fuel retries j : Nat) (w : ℚ),
      (retryGo op rand d retries fuel).delays[j]? = some w →
      w = d * 2 ^ (retries + j) + rand (retries + j) * 1000 := by
  intro fuel
  induction fuel with
  | zero => intro retries j w h; simp [retryGo] at h
  | succ fuel ih =>
    intro retries j w h
    match hop : op retries with
    | .success v => rw [retryGo, hop] at h; simp at h
    | .failure e =>
      by_cases hte : isTransient e = true
      · rw [retryGo, hop] at h
        simp only [hte, if_pos] at h
        match j with
        | 0 =>
          simp at h
          rw [Nat.add_zero, ← h]
        | j + 1 =>
          simp only [List.getElem?_cons_succ] at h
          have := ih (retries + 1) j w h
          rwa [show retries + 1 + j = retries + (j + 1) by omega] at this
      · rw [retryGo, hop] at h
        simp [hte] at h

/-
Claim theorems about the retrier.
-/

/-- C1: for every operation and retry policy, if the operation fails
with a transient-classified error on `k < maxRetries` consecutive
attempts and then succeeds, `retryWithBackoff` returns the value of
that successful attempt, and makes no attempt after the success
(exactly `k + 1` invocations). -/
theorem retry_then_succeed {α : Type} (op : Nat → Outcome α) (rand : Nat → ℚ)
    (maxRetries : Nat) (d : ℚ) (k : Nat) (v : α)
    (hk : k < maxRetries)
    (htr : ∀ i, i < k → transientAt op i)
    (hs : op k = .success v) :
    (retryWithBackoff op rand maxRetries d).result = .success v ∧
    (retryWithBackoff op rand maxRetries d).attempts = k + 1 := by
  have h := retryGo_success op rand d v k 0 maxRetries hk
    (fun i hi => by simpa using htr i hi) (by simpa using hs)
  exact ⟨h.1, h.2⟩

theorem retry_then_succeed_witness :
    (retryWithBackoff wOpOnce wRand0 5 2000).result = .success 42 ∧
    (retryWithBackoff wOpOnce wRand0 5 2000).attempts = 2 :=
  retry_then_succeed wOpOnce wRand0 5 2000 1 42 (by decide)
    (fun i hi => ⟨.jsError "503 Service Unavailable", by
      have hi0 : i = 0 := by omega
      subst hi0
      exact ⟨rfl, by decide⟩⟩)
    (by decide)

/-- C2: for every operation failing with transient-classified errors
on all `maxRetries` attempts, `retryWithBackoff` fails with exactly
the maximum-retries error, after exactly `maxRetries` invocations;
that error is itself not transient-classified, so it is never any raw
underlying transient error. -/
theorem exhaustion_fails_with_retries_exhausted {α : Type} (op : Nat → Outcome α)
    (rand : Nat → ℚ) (maxRetries : Nat) (d : ℚ)
    (htr : ∀ i, i < maxRetries → transientAt op i) :
    (retryWithBackoff op rand maxRetries d).result =
      .failure (.jsError "Maximum retries reached. The service is currently unavailable. Please try again later.") ∧
    (retryWithBackoff op rand maxRetries d).attempts = maxRetries ∧
    isTransient (.jsError maxRetriesMsg) = false := by
  have h := retryGo_exhaust op rand d maxRetries 0 (fun i hi => by simpa using htr i hi)
  exact ⟨h.1, h.2.1, by decide⟩

theorem exhaustion_fails_with_retries_exhausted_witness :
    (retryWithBackoff wOpAlways wRand0 5 2000).result =
      .failure (.jsError "Maximum retries reached. The service is currently unavailable. Please try again later.") ∧
    (retryWithBackoff wOpAlways wRand0 5 2000).attempts = 5 ∧
    isTransient (.jsError maxRetriesMsg) = false :=
  exhaustion_fails_with_retries_exhausted wOpAlways wRand0 5 2000
    (fun i _ => ⟨.jsError "model is overloaded", rfl, by decide⟩)

/-- C3: for every retry policy with at least one attempt and every
operation whose first failure is not transient-classified,
`retryWithBackoff` makes exactly one invocation, awaits no delay, and
propagates that original error unchanged. -/
theorem permanent_single_attempt {α : Type} (op : Nat → Outcome α) (rand : Nat → ℚ)
    (maxRetries : Nat) (d : ℚ) (e : Thrown)
    (hmax : 1 ≤ maxRetries) (h0 : op 0 = .failure e) (hperm : isTransient e = false) :
    retryWithBackoff op rand maxRetries d = ⟨.failure e, 1, []⟩ := by
  obtain ⟨fuel', rfl⟩ : ∃ f, maxRetries = f + 1 := ⟨maxRetries - 1, by omega⟩
  simp [retryWithBackoff, retryGo, h0, hperm]

theorem permanent_single_attempt_witness :
    retryWithBackoff wOpPerm wRand0 5 2000 =
      ⟨.failure (.jsError "400 Bad Request"), 1, []⟩ :=
  permanent_single_attempt wOpPerm wRand0 5 2000 (.jsError "400 Bad Request")
    (by decide) rfl (by decide)

/-- C10: when transient failures exhaust the budget, a full backoff
delay is awaited after every transient failure including the final
one: exactly `maxRetries` delays are recorded, one per invocation,
and only then is the maximum-retries error thrown. -/
theorem exhaustion_delays_after_every_failure {α : Type} (op : Nat → Outcome α)
    (rand : Nat → ℚ) (maxRetries : Nat) (d : ℚ)
    (htr : ∀ i, i < maxRetries → transientAt op i) :
    (retryWithBackoff op rand maxRetries d).delays.length = maxRetries ∧
    (retryWithBackoff op rand maxRetries d).attempts = maxRetries ∧
    (retryWithBackoff op rand maxRetries d).result = .failure (.jsError maxRetriesMsg) := by
  have h := retryGo_exhaust op rand d maxRetries 0 (fun i hi => by simpa using htr i hi)
  exact ⟨h.2.2, h.2.1, h.1⟩

theorem exhaustion_delays_after_every_failure_witness :
    (retryWithBackoff wOpAlways wRand0 5 2000).delays.length = 5 ∧
    (retryWithBackoff wOpAlways wRand0 5 2000).attempts = 5 ∧
    (retryWithBackoff wOpAlways wRand0 5 2000).result = .failure (.jsError maxRetriesMsg) :=
  exhaustion_delays_after_every_failure wOpAlways wRand0 5 2000
    (fun i _ => ⟨.jsError "model is overloaded", rfl, by decide⟩)

/-- C5: with every jitter draw in [0, 1), the delay recorded after
the i-th transient failure (0-indexed) lies in
`[initialDelay * 2 ^ i, initialDelay * 2 ^ i + 1000)`; and under the
default policy (maxRetries = 5, initialDelay = 2000) consecutive
recorded delays are non-decreasing. -/
theorem backoff_delay_bounds {α : Type} (op : Nat → Outcome α) (rand : Nat → ℚ)
    (maxRetries : Nat) (d : ℚ)
    (hr : ∀ n, 0 ≤ rand n ∧ rand n < 1) :
    (∀ j w, (retryWithBackoff op rand maxRetries d).delays[j]? = some w →
      d * 2 ^ j ≤ w ∧ w < d * 2 ^ j + 1000) ∧
    (∀ j w w', (retryWithBackoff op rand 5 2000).delays[j]? = some w →
      (retryWithBackoff op rand 5 2000).delays[j + 1]? = some w' → w ≤ w') := by
  constructor
  · intro j w h
    have hw := retryGo_delay_eq op rand d maxRetries 0 j w h
    rw [Nat.zero_add] at hw
    have h0 := (hr j).1
    have h1 := (hr j).2
    constructor
    · have : 0 ≤ rand j * 1000 := mul_nonneg h0 (by norm_num)
      linarith [this, hw.ge]
    · have : rand j * 1000 < 1 * 1000 :=
        mul_lt_mul_of_pos_right h1 (by norm_num)
      linarith [this, hw.le]
  · intro j w w' h h'
    have hw := retryGo_delay_eq op rand 2000 5 0 j w h
    have hw' := retryGo_delay_eq op rand 2000 5 0 (j + 1) w' h'
    rw [Nat.zero_add] at hw hw'
    have hone : (1 : ℚ) ≤ 2 ^ j := by
      calc (1 : ℚ) = 1 ^ j := (one_pow j).symm
        _ ≤ 2 ^ j := pow_le_pow_left₀ (by norm_num) (by norm_num) j
    have hjlt : rand j * 1000 < 1 * 1000 :=
      mul_lt_mul_of_pos_right (hr j).2 (by norm_num)
    have hj1 : 0 ≤ rand (j + 1) * 1000 :=
      mul_nonneg (hr (j + 1)).1 (by norm_num)
    rw [pow_succ] at hw'
    rw [hw, hw']
    nlinarith [hone, hjlt, hj1]

theorem backoff_delay_bounds_witness :
    ((2000 : ℚ) * 2 ^ 0 ≤ 2500 ∧ (2500 : ℚ) < 2000 * 2 ^ 0 + 1000) ∧
    (2500 : ℚ) ≤ 4500 := by
  have ht : isTransient (Thrown.jsError "model is overloaded") = true := by decide
  have h := backoff_delay_bounds wOpAlways wRandHalf 5 2000
    (fun _ => by constructor <;> norm_num [wRandHalf])
  have h0 : (retryWithBackoff wOpAlways wRandHalf 5 2000).delays[0]? = some 2500 := by
    norm_num [retryWithBackoff, retryGo, wOpAlways, wRandHalf, ht]
  have h1 : (retryWithBackoff wOpAlways wRandHalf 5 2000).delays[0 + 1]? = some 4500 := by
    norm_num [retryWithBackoff, retryGo, wOpAlways, wRandHalf, ht]
  exact ⟨h.1 0 2500 h0, h.2 0 2500 4500 h0 h1⟩

/-
Branch structure of the orchestrator.
-/

/-- The fetch effect of one call: none on the text-only branch,
exactly one fetch of the image URL otherwise. -/
theorem analyzeTry_fetches (env : Env) (rand : Nat → ℚ) (imageUrl prompt language : String) :
    (analyzeTry env rand imageUrl prompt language).fetches =
      if imageUrl = "" ∧ language ≠ "english" then [] else [imageUrl] := by
  by_cases hc : imageUrl = "" ∧ language ≠ "english"
  · simp [analyzeTry, hc]
  · cases henv : env.fetch imageUrl with
    | reject e => simp [analyzeTry, hc, henv]
    | resp ok blob =>
      cases ok with
      | false => simp [analyzeTry, hc, henv]
      | true => cases hb : blobToBase64 blob <;> simp [analyzeTry, hc, henv, hb]

/-- The outer catch does not change the fetch log. -/
theorem analyzeXrayImage_fetches (env : Env) (rand : Nat → ℚ)
    (imageUrl prompt language : String) :
    (analyzeXrayImage env rand imageUrl prompt language).fetches =
      (analyzeTry env rand imageUrl prompt language).fetches := rfl

/-- C6: the text-only branch (no fetch issued) is taken iff the image
source is absent and the language is not english; with no image
source and english, the call instead proceeds to the image-fetch
path and fetches the empty URI. -/
theorem text_only_branch_iff (env : Env) (rand : Nat → ℚ)
    (imageUrl prompt language : String) :
    ((analyzeXrayImage env rand imageUrl prompt language).fetches = [] ↔
      (imageUrl = "" ∧ language ≠ "english")) ∧
    (imageUrl = "" → language = "english" →
      (analyzeXrayImage env rand imageUrl prompt language).fetches = [""]) := by
  rw [analyzeXrayImage_fetches, analyzeTry_fetches]
  constructor
  · by_cases hc : imageUrl = "" ∧ language ≠ "english" <;> simp [hc]
  · intro h1 h2
    have hc : ¬(imageUrl = "" ∧ language ≠ "english") := by simp [h2]
    simp [hc, h1, h2]

theorem text_only_branch_iff_witness :
    (analyzeXrayImage wEnv wRand0 "" "p" "hindi").fetches = [] ∧
    (analyzeXrayImage wEnv wRand0 "" "p" "english").fetches = [""] := by
  have h1 := text_only_branch_iff wEnv wRand0 "" "p" "hindi"
  have h2 := text_only_branch_iff wEnv wRand0 "" "p" "english"
  exact ⟨h1.1.mpr ⟨rfl, by decide⟩, h2.2 rfl rfl⟩

/-- C7: in image-grounded mode the request is the instruction text
plus the image part whose mime type is the fetched blob's content
type, and the appended language directive is exactly the fixed Hindi
sentence for "hindi", the fixed Marathi sentence for "marathi", and
the empty string for every other language value. -/
theorem image_mode_request_shape (env : Env) (rand : Nat → ℚ)
    (imageUrl prompt language : String) (blob : Blob) (payload : String)
    (hbranch : ¬(imageUrl = "" ∧ language ≠ "english"))
    (hfetch : env.fetch imageUrl = .resp true blob)
    (henc : blobToBase64 blob = .ok payload) :
    (analyzeXrayImage env rand imageUrl prompt language).requestParts =
      some [ReqPart.text ("You are a medical professional analyzing an X-ray image. " ++
              "Please provide a detailed analysis based on the following prompt: " ++
              prompt ++ ". " ++ languagePrompt language),
            ReqPart.inlineData blob.type payload] ∧
    languagePrompt "hindi" = "Provide the analysis in Hindi language." ∧
    languagePrompt "marathi" = "Provide the analysis in Marathi language." ∧
    (language ≠ "hindi" → language ≠ "marathi" → languagePrompt language = "") := by
  refine ⟨?_, rfl, rfl, ?_⟩
  · simp [analyzeXrayImage, analyzeTry, hbranch, hfetch, henc, imageInstruction]
  · intro h1 h2
    simp [languagePrompt, h1, h2]

theorem image_mode_request_shape_witness :
    (analyzeXrayImage wEnv wRand0 "http://host/img" "p" "hindi").requestParts =
      some [ReqPart.text ("You are a medical professional analyzing an X-ray image. " ++
              "Please provide a detailed analysis based on the following prompt: " ++
              "p" ++ ". " ++ languagePrompt "hindi"),
            ReqPart.inlineData wBlob.type "QUJD"] ∧
    languagePrompt "hindi" = "Provide the analysis in Hindi language." := by
  have h := image_mode_request_shape wEnv wRand0 "http://host/img" "p" "hindi" wBlob "QUJD"
    (by decide) rfl (by rfl)
  exact ⟨h.1, h.2.1⟩

/-- C8: when the image fetch resolves with a non-ok status, the call
fails with the fetch-failure error (surfaced with that original
message), no model request is built and zero model invocations are
made. -/
theorem fetch_failure_before_model (env : Env) (rand : Nat → ℚ)
    (imageUrl prompt language : String) (blob : Blob)
    (hbranch : ¬(imageUrl = "" ∧ language ≠ "english"))
    (hfetch : env.fetch imageUrl = .resp false blob) :
    (analyzeXrayImage env rand imageUrl prompt language).result =
      .failure (.jsError "Failed to fetch image") ∧
    (analyzeXrayImage env rand imageUrl prompt language).modelCalls = 0 ∧
    (analyzeXrayImage env rand imageUrl prompt language).requestParts = none := by
  have hm : transientMsg "Failed to fetch image" = false := by decide
  refine ⟨?_, ?_, ?_⟩ <;>
    simp [analyzeXrayImage, analyzeTry, hbranch, hfetch, normalizeError, hm, fetchFailMsg]

theorem fetch_failure_before_model_witness :
    (analyzeXrayImage wEnv404 wRand0 "http://host/img" "p" "english").result =
      .failure (.jsError "Failed to fetch image") ∧
    (analyzeXrayImage wEnv404 wRand0 "http://host/img" "p" "english").modelCalls = 0 ∧
    (analyzeXrayImage wEnv404 wRand0 "http://host/img" "p" "english").requestParts = none :=
  fetch_failure_before_model wEnv404 wRand0 "http://host/img" "p" "english" wBlob
    (by decide) rfl

/-
Error normalization at the analyzeXrayImage boundary.
-/

/-- C4 counterexample: a call whose model fails transiently on every
attempt exhausts the retries, yet the error escaping
`analyzeXrayImage` carries the maximum-retries message, not the
stable temporarily-unavailable message the claim requires: the
exhaustion error is not itself transient-classified, so the outer
catch rethrows it with its original message. -/
theorem exhausted_error_keeps_maxretries_message :
    (analyzeXrayImage wEnv503 wRand0 "" "p" "hindi").result =
      .failure (.jsError maxRetriesMsg) ∧
    maxRetriesMsg ≠ highLoadMsg := by
  constructor
  · decide
  · decide

/-- C4 amended: after retries are exhausted, the failure escaping
`analyzeXrayImage` carries the maximum-retries message unchanged,
because that message is not transient-classified; the three-tier
rewrite of the outer catch applies to the escaping error's own
message: an Error message containing "503" or "overloaded" becomes
the stable temporarily-unavailable message, any other Error message
is rethrown unchanged, and a non-Error value becomes the generic
unexpected-error message. -/
theorem error_normalization_amended (env : Env) (rand : Nat → ℚ)
    (prompt language : String)
    (hlang : language ≠ "english")
    (htr : ∀ i, i < 5 → transientAt (opOf env) i) :
    (analyzeXrayImage env rand "" prompt language).result =
      .failure (.jsError maxRetriesMsg) ∧
    transientMsg maxRetriesMsg = false ∧
    (∀ m, transientMsg m = true → normalizeError (.jsError m) = .jsError highLoadMsg) ∧
    (∀ m, transientMsg m = false → normalizeError (.jsError m) = .jsError m) ∧
    normalizeError .nonError = .jsError unexpectedMsg := by
  have hx := retryGo_exhaust (opOf env) rand 2000 5 0 (fun i hi => by simpa using htr i hi)
  have hres : (retryWithBackoff (opOf env) rand 5 2000).result =
      .failure (.jsError maxRetriesMsg) := hx.1
  have hm : transientMsg maxRetriesMsg = false := by decide
  refine ⟨?_, hm, ?_, ?_, rfl⟩
  · simp [analyzeXrayImage, analyzeTry, hlang, hres, normalizeError, hm]
  · intro m hmm; simp [normalizeError, hmm]
  · intro m hmm; simp [normalizeError, hmm]

theorem error_normalization_amended_witness :
    (analyzeXrayImage wEnv503 wRand0 "" "p" "hindi").result =
      .failure (.jsError maxRetriesMsg) ∧
    normalizeError (.jsError "503 again") = .jsError highLoadMsg ∧
    normalizeError .nonError = .jsError unexpectedMsg := by
  have h := error_normalization_amended wEnv503 wRand0 "p" "hindi" (by decide)
    (fun i _ => ⟨.jsError "503 Service Unavailable", rfl, by decide⟩)
  exact ⟨h.1, h.2.2.1 "503 again" (by decide), h.2.2.2.2⟩

/-
The binary encoder.
-/

/-- Splitting never yields an empty list of segments. -/
theorem splitChar_ne_nil (sep : Char) : ∀ l : List Char, splitChar sep l ≠ [] := by
  intro l
  cases l with
  | nil => simp [splitChar]
  | cons c cs =>
    rw [splitChar]
    cases h : splitChar sep cs with
    | nil => simp
    | cons a t =>
      by_cases hc : c = sep <;> simp [hc]

/-- A separator-free list is a single segment. -/
theorem splitChar_not_mem (sep : Char) :
    ∀ l : List Char, sep ∉ l → splitChar sep l = [l] := by
  intro l
  induction l with
  | nil => intro _; rfl
  | cons c cs ih =>
    intro h
    have hc : c ≠ sep := fun he => h (he ▸ List.mem_cons_self c cs)
    have hcs : sep ∉ cs := fun hm => h (List.mem_cons_of_mem c hm)
    rw [splitChar, ih hcs]
    simp [hc]

/-- Splitting at the first separator occurrence: the separator-free
part before it is the first segment. -/
theorem splitChar_append (sep : Char) :
    ∀ (l₁ l₂ : List Char), sep ∉ l₁ →
      splitChar sep (l₁ ++ sep :: l₂) = l₁ :: splitChar sep l₂ := by
  intro l₁
  induction l₁ with
  | nil =>
    intro l₂ _
    rw [List.nil_append, splitChar]
    cases h : splitChar sep l₂ with
    | nil => exact absurd h (splitChar_ne_nil sep l₂)
    | cons a t => simp
  | cons c cs ih =>
    intro l₂ h
    have hc : c ≠ sep := fun he => h (he ▸ List.mem_cons_self c cs)
    have hcs : sep ∉ cs := fun hm => h (List.mem_cons_of_mem c hm)
    rw [List.cons_append, splitChar, ih l₂ hcs]
    simp [hc]

/-- C9 counterexample: the data URL of an empty blob ends right at
the comma; the delimiter is present and the read succeeded, yet the
encoder rejects with the conversion error instead of returning the
(empty) stripped payload. -/
theorem encoder_empty_payload_counterexample :
    blobToBase64 ⟨"image/png", some "data:image/png;base64,".data⟩ =
      .error (.jsError convertFailMsg) ∧
    ',' ∈ "data:image/png;base64,".data := by
  constructor
  · rfl
  · decide

/-- C9 amended: when the reader result is a data URL made of a
comma-free prefix, the comma, and a comma-free non-empty payload, the
encoder strips everything up to and including the comma and returns
the payload; it fails with the read-failure message when the resource
cannot be read, and with the conversion error both when no comma
occurs in the encoded output and when nothing follows the comma. -/
theorem encoder_amended (ct : String) (pre payload : List Char)
    (hpre : ',' ∉ pre) (hpay : ',' ∉ payload) (hne : payload ≠ []) :
    blobToBase64 ⟨ct, some (pre ++ ',' :: payload)⟩ = .ok (String.mk payload) ∧
    blobToBase64 ⟨ct, none⟩ = .error (.jsError readFailMsg) ∧
    (∀ s : List Char, ',' ∉ s →
      blobToBase64 ⟨ct, some s⟩ = .error (.jsError convertFailMsg)) ∧
    blobToBase64 ⟨ct, some (pre ++ [','])⟩ = .error (.jsError convertFailMsg) := by
  refine ⟨?_, rfl, ?_, ?_⟩
  · rw [blobToBase64]
    simp only [splitChar_append ',' pre payload hpre, splitChar_not_mem ',' payload hpay]
    simp [hne]
  · intro s hs
    rw [blobToBase64]
    simp [splitChar_not_mem ',' s hs]
  · have h : pre ++ [','] = pre ++ ',' :: ([] : List Char) := rfl
    rw [blobToBase64, h]
    simp [splitChar_append ',' pre [] hpre, splitChar]

theorem encoder_amended_witness :
    blobToBase64 ⟨"image/png", some ("data:image/png;base64".data ++ ',' :: "QUJD".data)⟩ =
      .ok (String.mk "QUJD".data) ∧
    blobToBase64 ⟨"image/png", none⟩ = .error (.jsError readFailMsg) := by
  have h := encoder_amended "image/png" "data:image/png;base64".data "QUJD".data
    (by decide) (by decide) (by decide)
  exact ⟨h.1, h.2.1⟩
